import Mathlib

/-!
Verification of the dataset-indexing layer of a video-object-segmentation
training pipeline (`training/dataset/vos_raw_dataset.py`).

The file shallowly embeds the six indexer classes (`PNGRawDataset`,
`NPZRawDataset`, `SA1BRawDataset`, `JSONRawDataset`, `BraTSRawDataset`,
`TestDataset`) together with the value objects `VOSFrame` and `VOSVideo`.
Filesystem reads (directory listings, glob results, text-file lines, the
contents of array archives and volumes) are passed to the embedded functions
as explicit arguments; Python exceptions (IndexError, ValueError, an empty
`[0]` indexing, a failing `int(...)` parse, `np.min` of an empty array) are
modelled by an `Option` result, `none` standing for a raised exception.

Python string operations are re-implemented structurally over `List Char`
(`String.data`) because the kernel cannot evaluate the built-in `Substring`
based operations; each re-implementation notes the Python function it models.
-/

/-! ## Python string primitives -/

/-- Whether the character list `s` starts with `pat` (used for substring and
suffix tests; `charsStartsWith s [] = true` like Python's `"" in s`). -/
def charsStartsWith : List Char → List Char → Bool
  | _, [] => true
  | [], _ :: _ => false
  | a :: s, b :: p => a == b && charsStartsWith s p

/-- Python's substring test `pat in s` on character lists. -/
def charsContainsSub (pat : List Char) : List Char → Bool
  | [] => charsStartsWith [] pat
  | a :: rest => charsStartsWith (a :: rest) pat || charsContainsSub pat rest

/-- Python's `pat in s` for strings. -/
def strContains (s pat : String) : Bool :=
  charsContainsSub pat.data s.data

/-- Python's `s.endswith(pat)` for strings. -/
def strEndsWith (s pat : String) : Bool :=
  charsStartsWith s.data.reverse pat.data.reverse

/-- Python's `s.split(sep)` for a one-character separator:
`"".split(sep) = [""]`, empty pieces are kept. -/
def splitChar (sep : Char) : List Char → List (List Char)
  | [] => [[]]
  | c :: rest =>
    let r := splitChar sep rest
    if c == sep then [] :: r
    else
      match r with
      | [] => [[c]]
      | h :: t => (c :: h) :: t

/-- Joins character-list pieces with a one-character separator (inverse of
`splitChar` on its output). -/
def joinSep (sep : Char) : List (List Char) → List Char
  | [] => []
  | [x] => x
  | x :: y :: t => x ++ sep :: joinSep sep (y :: t)

/-- Python's `s.strip()`: leading and trailing whitespace removed. -/
def strTrim (s : String) : String :=
  String.mk (((s.data.dropWhile Char.isWhitespace).reverse.dropWhile
    Char.isWhitespace).reverse)

/-- `os.path.splitext(p)[0]` on character lists: the extension, when the last
path component has a dot after its leading dots, is cut at that last dot. -/
def splitextRootChars (p : List Char) : List Char :=
  let comps := splitChar '/' p
  let base := comps.getLastD []
  let lead := base.takeWhile (· == '.')
  let rest := base.drop lead.length
  let parts := splitChar '.' rest
  if parts.length ≤ 1 then p
  else
    let root := lead ++ joinSep '.' parts.dropLast
    joinSep '/' (comps.dropLast ++ [root])

/-- `os.path.splitext(p)[0]` for strings. -/
def splitextRoot (p : String) : String :=
  String.mk (splitextRootChars p.data)

/-- `os.path.dirname(p)`: everything before the last slash ("" when there is
no slash). -/
def dirname (p : String) : String :=
  String.mk (joinSep '/' (splitChar '/' p.data).dropLast)

/-- `os.path.join(a, b)` for the relative second arguments this code uses. -/
def pathJoin (a b : String) : String :=
  a ++ "/" ++ b

/-- Python's `int(s)` restricted to the unsigned decimal numerals this code
feeds it (frame-file stems `%05d`, the `sa_<integer>` suffix); a non-numeral
raises ValueError, modelled by `none`. -/
def strToNatOpt (s : String) : Option Nat :=
  if s.data ≠ [] && s.data.all Char.isDigit then
    some (s.data.foldl (fun acc c => acc * 10 + (c.toNat - '0'.toNat)) 0)
  else none

/-- Decimal rendering of a natural number, Python's `str(n)` for `n ≥ 0`. -/
def natToStr (n : Nat) : String :=
  String.mk (Nat.toDigits 10 n)

/-- Python's `"%05d" % n` for `n ≥ 0`: the decimal numeral zero-padded to
five characters. -/
def pad5 (n : Nat) : String :=
  String.mk (List.replicate (5 - (Nat.toDigits 10 n).length) '0' ++
    Nat.toDigits 10 n)

/-- Python string `<=` (code-point lexicographic), the order `sorted` uses. -/
def charsLe : List Char → List Char → Bool
  | [], _ => true
  | _ :: _, [] => false
  | a :: s, b :: t => if a == b then charsLe s t else decide (a < b)

/-! ## List primitives: Python slicing, `enumerate`, sorting, fallible loops -/

/-- Worker for `everyNth`: keeps an element when the countdown hits 0 and
then restarts the countdown at `K - 1`. -/
def everyNthAux (K : Nat) : Nat → List α → List α
  | _, [] => []
  | 0, a :: rest => a :: everyNthAux K (K - 1) rest
  | c + 1, _ :: rest => everyNthAux K c rest

/-- Python's slice `l[::K]` for `K ≥ 1`: the elements at indices
`0, K, 2K, ...`. -/
def everyNth (K : Nat) (l : List α) : List α :=
  everyNthAux K 0 l

/-- Python's `enumerate(l, i)`. -/
def enumFrom (i : Nat) : List α → List (Nat × α)
  | [] => []
  | a :: rest => (i, a) :: enumFrom (i + 1) rest

/-- Python's `enumerate(l)`. -/
def enumList (l : List α) : List (Nat × α) :=
  enumFrom 0 l

/-- A `for` loop over `l` whose body can raise (`none`): the whole loop
raises as soon as one step does. -/
def mapMOpt (g : α → Option β) : List α → Option (List β)
  | [] => some []
  | a :: rest =>
    match g a, mapMOpt g rest with
    | some b, some bs => some (b :: bs)
    | _, _ => none

/-- Inserts into a `charsLe`-sorted list of strings, keeping equal elements
stable. -/
def insertSorted (a : String) : List String → List String
  | [] => [a]
  | b :: rest =>
    if charsLe a.data b.data then a :: b :: rest else b :: insertSorted a rest

/-- Python's `sorted` on strings (stable, code-point lexicographic). -/
def sortStr (l : List String) : List String :=
  l.foldr insertSorted []

/-! ## Data model

`VOSFrame` / `VOSVideo` mirror the dataclasses of `vos_raw_dataset.py`.
An image tensor is modelled as nested lists of rationals: `Grid` is one 2-D
image plane (H x W), `Vol3` a 3-D tensor (leading axis x H x W), `Vol4` a
4-D array. `GridN` is one 2-D plane of raw unsigned-integer samples as read
from an `.npz` archive. A frame's `image_path` is `none` where the Python
code passes `image_path=None`. -/

abbrev Grid := List (List ℚ)

abbrev Vol3 := List Grid

abbrev Vol4 := List Vol3

abbrev GridN := List (List Nat)

/-- The dataclass `VOSFrame(frame_idx, image_path, data, is_conditioning_only)`. -/
structure VOSFrame where
  frame_idx : Nat
  image_path : Option String
  data : Option Vol3 := none
  is_conditioning_only : Bool := false
deriving DecidableEq

/-- The dataclass `VOSVideo(video_name, video_id, frames)`. -/
structure VOSVideo where
  video_name : String
  video_id : Nat
  frames : List VOSFrame
deriving DecidableEq

/-- `len(video)` = the frame count. -/
def VOSVideo.length (v : VOSVideo) : Nat :=
  v.frames.length

/-! ## Segment-loader handles

The segment-loader classes live in `training/dataset/vos_segment_loader.py`,
which is not part of the repository snapshot; each is modelled from the spec
as an opaque handle that retains exactly its constructor arguments. -/

/-- Modelled from the spec: `PalettisedPNGSegmentLoader(video_png_root,
sample_rate)` (class not in the snapshot) retains its constructor
arguments. -/
structure PalettisedPNGSegmentLoader where
  video_png_root : String
  sample_rate : Nat
deriving DecidableEq

/-- Modelled from the spec: `MultiplePNGSegmentLoader(video_png_root,
single_object_mode)` (class not in the snapshot) retains its constructor
arguments. -/
structure MultiplePNGSegmentLoader where
  video_png_root : String
  single_object_mode : Bool
deriving DecidableEq

/-- The segment loader a `PNGRawDataset.get_video` call returns: one of the
two PNG loader classes, chosen by the palette flag. -/
inductive PNGSegLoader where
  | palettised (l : PalettisedPNGSegmentLoader)
  | multiple (l : MultiplePNGSegmentLoader)
deriving DecidableEq

/-- Modelled from the spec: `NPZSegmentLoader(masks)` (class not in the
snapshot) is constructed directly from the already-strided mask stack and
retains it. -/
structure NPZSegmentLoader where
  masks : List GridN
deriving DecidableEq

/-- Modelled from the spec: `SA1BSegmentLoader(video_mask_path,
mask_area_frac_thresh, video_frame_path, uncertain_iou)` (class not in the
snapshot) retains its constructor arguments. -/
structure SA1BSegmentLoader where
  video_mask_path : String
  mask_area_frac_thresh : ℚ
  video_frame_path : String
  uncertain_iou : ℚ
deriving DecidableEq

/-- One per-frame annotation record of a SA-V manual JSON: `none` is a frame
with no record, and a present record is a list of per-object entries, each
possibly missing (`none`); the entries' content is opaque here. -/
abbrev FrameAnnot := Option (List (Option Unit))

/-- Modelled from the spec: `JSONSegmentLoader(video_json_path, ann_every,
frames_fps)` (class not in the snapshot) retains the annotation stride and
frame rate and exposes `frame_annots`, the annotation-presence list parsed
from the JSON file; that parsed list is supplied as an input here. -/
structure JSONSegmentLoader where
  video_json_path : String
  ann_every : Nat
  frames_fps : Nat
  frame_annots : List FrameAnnot
deriving DecidableEq

/-- Modelled from the spec: `BraTSSegmentLoader(mask_path)` (class not in
the snapshot) retains the resolved label path. -/
structure BraTSSegmentLoader where
  mask_path : String
deriving DecidableEq

/-- Modelled from the spec: `TestSegmentLoader()` (class not in the
snapshot) is a placeholder constructed with no arguments. -/
structure TestSegmentLoader where
deriving DecidableEq

/-- The two named fields of one `.npz` archive: `imgs`, a stack of 2-D
raw-sample planes, and `gts`, the stack of matching masks. -/
structure NPZData where
  imgs : List GridN
  gts : List GridN
deriving DecidableEq

/-! ## PNG-sequence indexer (`PNGRawDataset`)

Constructor inputs that come from the filesystem or from text files are
passed as arguments: `file_list` is the lines of `file_list_txt` (`none`
when no subset file is given), `imgDirListing` is `os.listdir(img_folder)`,
`excluded_list` the lines of `excluded_videos_list_txt`. The
single-object-mode expansion and the frame-multiplier replication
(`__init__` lines 108-123) concern no claim and are not modelled. -/

structure PNGRawDataset where
  img_folder : String
  gt_folder : String
  sample_rate : Nat
  is_palette : Bool
  single_object_mode : Bool
  truncate_video : Int
  video_names : List String
deriving DecidableEq

/-- `PNGRawDataset.__init__` lines 89-106: subset lines (or the directory
listing), whitespace-stripped and extension-stripped, minus the
extension-stripped exclusion lines, sorted. -/
def PNGRawDataset.resolveNames (file_list : Option (List String))
    (imgDirListing : List String) (excluded_list : Option (List String)) :
    List String :=
  let subset := match file_list with
    | some lines => lines.map (fun line => splitextRoot (strTrim line))
    | none => imgDirListing
  let excluded_files := match excluded_list with
    | some lines => lines.map (fun line => splitextRoot (strTrim line))
    | none => []
  sortStr (subset.filter (fun v => decide (v ∉ excluded_files)))

/-- `PNGRawDataset.get_video(idx)`. `all_frames_glob` is the raw
`glob.glob(os.path.join(video_frame_root, "*.jpg"))` result, sorted here as
the source sorts it. The loop variable `idx` of the final `for` shadows the
`idx` parameter, so the `VOSVideo` receives the last enumeration index when
the frame list is non-empty and the untouched parameter when it is empty; a
zero sampling stride would raise ValueError in the slice (`none`). -/
def PNGRawDataset.get_video (ds : PNGRawDataset) (idx : Nat)
    (all_frames_glob : List String) :
    Option (PNGRawDataset × VOSVideo × PNGSegLoader) :=
  match ds.video_names.get? idx with
  | none => none
  | some video_name =>
    if ds.sample_rate = 0 then none
    else
      let video_mask_root := pathJoin ds.gt_folder video_name
      let segment_loader :=
        if ds.is_palette then
          PNGSegLoader.palettised ⟨video_mask_root, ds.sample_rate⟩
        else
          PNGSegLoader.multiple ⟨video_mask_root, ds.single_object_mode⟩
      let all_frames := sortStr all_frames_glob
      let all_frames :=
        if ds.truncate_video > 0 then all_frames.take ds.truncate_video.toNat
        else all_frames
      let sel := everyNth ds.sample_rate all_frames
      let frames := (enumList sel).map
        (fun p => VOSFrame.mk p.1 (some p.2) none false)
      let vid_id := if sel.length = 0 then idx else sel.length - 1
      some (ds, ⟨video_name, vid_id, frames⟩, segment_loader)

/-! ## Compressed-array indexer (`NPZRawDataset`) -/

structure NPZRawDataset where
  folder : String
  sample_rate : Nat
  truncate_video : Int
  video_names : List String
deriving DecidableEq

/-- `NPZRawDataset.__init__` lines 173-198. `walkFiles` is the list of
file paths found by `os.walk`, relative to `folder`: every `.npz` among them
becomes an extension-stripped identifier; a subset file keeps only its
whitespace-stripped lines that already occur verbatim among those
identifiers (no extension stripping); exclusion lines are
extension-stripped; the result is sorted. -/
def NPZRawDataset.resolveNames (walkFiles : List String)
    (file_list : Option (List String)) (excluded_list : Option (List String)) :
    List String :=
  let subset0 := (walkFiles.filter (fun f => strEndsWith f ".npz")).map
    (fun f => splitextRoot f)
  let subset := match file_list with
    | some lines => (lines.map strTrim).filter (fun l => decide (l ∈ subset0))
    | none => subset0
  let excluded_files := match excluded_list with
    | some lines => lines.map (fun line => splitextRoot (strTrim line))
    | none => []
  sortStr (subset.filter (fun v => decide (v ∉ excluded_files)))

/-- `npz_data['imgs'] / 255.0` followed by
`np.repeat(frames[:, np.newaxis, :, :], 3, axis=1)`: every raw sample
divided by 255 and the resulting single-channel plane replicated into three
identical channels. -/
def npzProcessedImgs (npz : NPZData) : List Vol3 :=
  (npz.imgs.map (fun g => g.map (fun row => row.map
    (fun v : Nat => (v : ℚ) / 255)))).map (fun g => List.replicate 3 g)

/-- The truncation `x[:truncate_video]`, applied only when
`truncate_video > 0`. -/
def npzTrunc (truncate_video : Int) (l : List α) : List α :=
  if truncate_video > 0 then l.take truncate_video.toNat else l

/-- `NPZRawDataset.get_video(idx)`; `npz` is the loaded archive. Truncation
and the sampling stride are applied to the image stack and the mask stack
with the same slices; each kept frame gets position `i * sample_rate` from
its dense post-selection index `i`; a zero stride raises ValueError
(`none`). -/
def NPZRawDataset.get_video (ds : NPZRawDataset) (idx : Nat) (npz : NPZData) :
    Option (NPZRawDataset × VOSVideo × NPZSegmentLoader) :=
  match ds.video_names.get? idx with
  | none => none
  | some video_name =>
    if ds.sample_rate = 0 then none
    else
      let frames := npzTrunc ds.truncate_video (npzProcessedImgs npz)
      let masks := npzTrunc ds.truncate_video npz.gts
      let vos_frames := (enumList (everyNth ds.sample_rate frames)).map
        (fun p => VOSFrame.mk (p.1 * ds.sample_rate) none (some p.2) false)
      some (ds, ⟨video_name, idx, vos_frames⟩,
        ⟨everyNth ds.sample_rate masks⟩)

/-! ## Single-image indexer (`SA1BRawDataset`) -/

structure SA1BRawDataset where
  img_folder : String
  gt_folder : String
  num_frames : Nat
  mask_area_frac_thresh : ℚ
  uncertain_iou : ℚ
  video_names : List String
deriving DecidableEq

/-- `SA1BRawDataset.__init__` lines 254-274: subset lines extension-stripped,
or the `.jpg` basenames of the directory listing (cut at the first dot);
exclusion lines extension-stripped; no sorting. -/
def SA1BRawDataset.resolveNames (file_list : Option (List String))
    (imgDirListing : List String) (excluded_list : Option (List String)) :
    List String :=
  let subset := match file_list with
    | some lines => lines.map (fun line => splitextRoot (strTrim line))
    | none => (imgDirListing.filter (fun p => strEndsWith p ".jpg")).map
        (fun p : String => String.mk ((splitChar '.' p.data).headD []))
  let excluded_files := match excluded_list with
    | some lines => lines.map (fun line => splitextRoot (strTrim line))
    | none => []
  subset.filter (fun v => decide (v ∉ excluded_files))

/-- `SA1BRawDataset.get_video(idx)`: `num_frames` frames all pointing at the
same image path; the video name is then overwritten with
`video_name.split("_")[-1]` and the numeric id is `int` of it (ValueError =
`none` when that suffix is not a numeral). -/
def SA1BRawDataset.get_video (ds : SA1BRawDataset) (idx : Nat) :
    Option (SA1BRawDataset × VOSVideo × SA1BSegmentLoader) :=
  match ds.video_names.get? idx with
  | none => none
  | some video_name =>
    let video_frame_path := pathJoin ds.img_folder (video_name ++ ".jpg")
    let video_mask_path := pathJoin ds.gt_folder (video_name ++ ".json")
    let segment_loader : SA1BSegmentLoader :=
      ⟨video_mask_path, ds.mask_area_frac_thresh, video_frame_path,
        ds.uncertain_iou⟩
    let frames := (List.range ds.num_frames).map
      (fun frame_idx => VOSFrame.mk frame_idx (some video_frame_path) none false)
    let video_name := String.mk ((splitChar '_' video_name.data).getLastD [])
    match strToNatOpt video_name with
    | none => none
    | some vid => some (ds, ⟨video_name, vid, frames⟩, segment_loader)

/-! ## JSON-annotation indexer (`JSONRawDataset`) -/

structure JSONRawDataset where
  gt_folder : String
  img_folder : String
  sample_rate : Nat
  rm_unannotated : Bool
  ann_every : Nat
  frames_fps : Nat
  video_names : List String
deriving DecidableEq

/-- `JSONRawDataset.__init__` lines 327-353: one or several exclusion files
(a single path or a list of paths) merged into one exclusion set, each line
extension-stripped; subset lines extension-stripped (or the directory
listing); sorted. The Python `set(...)` is only ever used for membership
tests, so a list models it. -/
def JSONRawDataset.resolveNames (excludedLists : List (List String))
    (file_list : Option (List String)) (imgDirListing : List String) :
    List String :=
  let excluded_files := excludedLists.flatten.map
    (fun line => splitextRoot (strTrim line))
  let subset := match file_list with
    | some lines => lines.map (fun line => splitextRoot (strTrim line))
    | none => imgDirListing
  sortStr (subset.filter (fun v => decide (v ∉ excluded_files)))

/-- The list comprehension of `JSONRawDataset.get_video` lines 386-390:
`[i * ann_every for i, annot in enumerate(frame_annots) if annot is not None
and None not in annot]`. -/
def validFrameIds (frame_annots : List FrameAnnot) (ann_every : Nat) :
    List Nat :=
  (enumList frame_annots).filterMap (fun p =>
    match p.2 with
    | none => none
    | some annot =>
      if decide ((none : Option Unit) ∈ annot) then none
      else some (p.1 * ann_every))

/-- `JSONRawDataset.get_video(video_idx)`. `imgDirListing` is
`os.listdir` of the video's frame directory (each entry's stem is parsed as
`int`, ValueError = `none`); `frame_annots` is the annotation-presence list
the constructed `JSONSegmentLoader` parses from the video's `_manual.json`.
A zero sampling stride raises ValueError in the slice (`none`). -/
def JSONRawDataset.get_video (ds : JSONRawDataset) (video_idx : Nat)
    (imgDirListing : List String) (frame_annots : List FrameAnnot) :
    Option (JSONRawDataset × VOSVideo × JSONSegmentLoader) :=
  match ds.video_names.get? video_idx with
  | none => none
  | some video_name =>
    if ds.sample_rate = 0 then none
    else
      let video_json_path := pathJoin ds.gt_folder (video_name ++ "_manual.json")
      let segment_loader : JSONSegmentLoader :=
        ⟨video_json_path, ds.ann_every, ds.frames_fps, frame_annots⟩
      match mapMOpt (fun n => strToNatOpt (splitextRoot n))
          (sortStr imgDirListing) with
      | none => none
      | some frame_ids =>
        let frames := (everyNth ds.sample_rate frame_ids).map
          (fun frame_id => VOSFrame.mk frame_id
            (some (pathJoin ds.img_folder
              (video_name ++ "/" ++ pad5 frame_id ++ ".jpg"))) none false)
        let frames :=
          if ds.rm_unannotated then
            frames.filter (fun f => decide
              (f.frame_idx ∈ validFrameIds segment_loader.frame_annots
                segment_loader.ann_every))
          else frames
        some (ds, ⟨video_name, video_idx, frames⟩, segment_loader)

/-! ## Medical-volume indexer (`BraTSRawDataset`) -/

structure BraTSRawDataset where
  folder_path : String
  gt_path : String
  video_names : List String
  curr_vid : String
deriving DecidableEq

/-- `BraTSRawDataset.__init__`: the sorted `.npy` entries of the volume
folder (the `file_list_txt` parameter is accepted and ignored);
`curr_vid` starts as the empty string. -/
def BraTSRawDataset.resolveNames (imgDirListing : List String) : List String :=
  (sortStr imgDirListing).filter (fun i => strEndsWith i ".npy")

/-- The module-level `renormalize(arr)`: min-max scaling over the nonzero
(foreground) voxels with the `1e-8` guard, zeros forced back to zero.
`np.min` / `np.max` of an empty foreground raise (`none`). -/
def renormalize (arr : Vol3) : Option Vol3 :=
  let foreground := arr.flatten.flatten.filter (fun q => decide (q ≠ 0))
  match foreground.min?, foreground.max? with
  | some min_val, some max_val =>
    some (arr.map (fun g => g.map (fun row => row.map (fun v =>
      if v = 0 then 0
      else (v - min_val) / (max_val - min_val + 1 / 100000000)))))
  | _, _ => none

/-- The length of a 4-D nested-list array along its last axis, read off its
first element chain (a numpy array is rectangular, so every chain agrees). -/
def depthOf (v : Vol4) : Nat :=
  (((v.headD []).headD []).headD []).length

/-- `torch.permute(full_video, (3, 0, 1, 2))` on a rectangular 4-D array:
`out[d][c][h][w] = v[c][h][w][d]` (out-of-range reads, impossible on a
rectangular array, default to 0). -/
def permute3012 (v : Vol4) : List Vol3 :=
  (List.range (depthOf v)).map (fun d =>
    v.map (fun c => c.map (fun h => h.map (fun dl => dl.getD d 0))))

/-- `BraTSRawDataset.get_video(video_idx)`. `raw` is the loaded `.npy`
volume (axes: modality, H, W, depth), `gt_listing` is `os.listdir(gt_path)`.
The method stores the video name in `self.curr_vid` (the mutated instance is
the first component of the result), drops the first modality, renormalizes
each remaining modality, permutes depth to the front, resolves the label by
substring match taking the first hit (`[0]` of an empty match list raises,
`none`), and reads exactly 160 slices (an IndexError past the actual depth
is `none`). -/
def BraTSRawDataset.get_video (ds : BraTSRawDataset) (video_idx : Nat)
    (raw : Vol4) (gt_listing : List String) :
    Option (BraTSRawDataset × VOSVideo × BraTSSegmentLoader) :=
  match ds.video_names.get? video_idx with
  | none => none
  | some video_name =>
    let ds := { ds with curr_vid := video_name }
    let label_name := video_name.dropRight 8
    match mapMOpt renormalize (raw.drop 1) with
    | none => none
    | some full_video =>
      let full_video := permute3012 full_video
      match (gt_listing.filter (fun i =>
          strContains i label_name && strEndsWith i ".npy")).head? with
      | none => none
      | some label =>
        let segment_loader : BraTSSegmentLoader := ⟨pathJoin ds.gt_path label⟩
        match mapMOpt (fun frame_idx => (full_video.get? frame_idx).map
            (fun t => VOSFrame.mk frame_idx (some "null") (some t) false))
            (List.range 160) with
        | none => none
        | some frames =>
          some (ds, ⟨video_name, video_idx, frames⟩, segment_loader)

/-! ## Synthetic-test indexer (`TestDataset`) -/

/-- `TestDataset`: twenty random videos of shape 20 x 3 x 512 x 512 are
generated at construction and stored; the random tensors are modelled as an
arbitrary stored list. -/
structure TestDataset where
  imgs : List (List Vol3)
deriving DecidableEq

/-- `TestDataset.get_video(idx)`: slices the stored tensor into one frame
per leading index (IndexError on an out-of-range video index is `none`). -/
def TestDataset.get_video (ds : TestDataset) (idx : Nat) :
    Option (TestDataset × VOSVideo × TestSegmentLoader) :=
  match ds.imgs.get? idx with
  | none => none
  | some full_video =>
    let frames := (enumList full_video).map
      (fun p => VOSFrame.mk p.1 (some "null") (some p.2) false)
    some (ds, ⟨natToStr idx, idx, frames⟩, ⟨⟩)

/-! ## Lemmas about the list primitives -/

theorem everyNthAux_getElem? {α : Type _} (K : Nat) (hK : 0 < K) :
    ∀ (l : List α) (c j : Nat), (everyNthAux K c l)[j]? = l[c + j * K]?
  | [], c, j => by simp [everyNthAux]
  | a :: rest, c + 1, j => by
    rw [everyNthAux, everyNthAux_getElem? K hK rest c j]
    have : c + 1 + j * K = (c + j * K) + 1 := by omega
    rw [this, List.getElem?_cons_succ]
  | a :: rest, 0, 0 => by simp [everyNthAux]
  | a :: rest, 0, j + 1 => by
    rw [everyNthAux, List.getElem?_cons_succ,
      everyNthAux_getElem? K hK rest (K - 1) j]
    have : K - 1 + j * K + 1 = 0 + (j + 1) * K := by
      have : 1 ≤ K := hK
      calc K - 1 + j * K + 1 = K - 1 + 1 + j * K := by omega
        _ = K + j * K := by omega
        _ = 0 + (j + 1) * K := by ring_nf
    rw [← this, List.getElem?_cons_succ]

theorem everyNth_getElem? {α : Type _} (K : Nat) (hK : 0 < K) (l : List α)
    (j : Nat) : (everyNth K l)[j]? = l[j * K]? := by
  rw [everyNth, everyNthAux_getElem? K hK l 0 j, Nat.zero_add]

theorem everyNthAux_length {α : Type _} (K : Nat) (hK : 0 < K) :
    ∀ (l : List α) (c : Nat),
      (everyNthAux K c l).length = (l.length - c + K - 1) / K
  | [], c => by
    simp only [everyNthAux, List.length_nil]
    have : 0 - c + K - 1 = K - 1 := by omega
    rw [this, Nat.div_eq_of_lt (by omega)]
  | a :: rest, c + 1 => by
    rw [everyNthAux, everyNthAux_length K hK rest c]
    simp only [List.length_cons]
    congr 1
    omega
  | a :: rest, 0 => by
    rw [everyNthAux, List.length_cons, everyNthAux_length K hK rest (K - 1)]
    simp only [List.length_cons]
    by_cases h : K - 1 ≤ rest.length
    · have h1 : rest.length - (K - 1) + K - 1 = rest.length := by omega
      have h2 : rest.length + 1 - 0 + K - 1 = rest.length + K := by omega
      rw [h1, h2, Nat.add_div_right _ hK]
    · have h1 : rest.length - (K - 1) + K - 1 = K - 1 := by omega
      have h2 : rest.length + 1 - 0 + K - 1 = rest.length + K := by omega
      rw [h1, h2, Nat.add_div_right _ hK,
        Nat.div_eq_of_lt (show K - 1 < K by omega),
        Nat.div_eq_of_lt (show rest.length < K by omega)]

theorem everyNth_length {α : Type _} (K : Nat) (hK : 0 < K) (l : List α) :
    (everyNth K l).length = (l.length + K - 1) / K := by
  rw [everyNth, everyNthAux_length K hK l 0]
  congr 1

theorem everyNthAux_subset {α : Type _} (K : Nat) :
    ∀ (l : List α) (c : Nat) (x : α), x ∈ everyNthAux K c l → x ∈ l
  | [], _, x, h => by simp [everyNthAux] at h
  | a :: rest, 0, x, h => by
    rw [everyNthAux, List.mem_cons] at h
    rcases h with h | h
    · exact h ▸ List.mem_cons_self a rest
    · exact List.mem_cons_of_mem a (everyNthAux_subset K rest (K - 1) x h)
  | a :: rest, c + 1, x, h => by
    rw [everyNthAux] at h
    exact List.mem_cons_of_mem a (everyNthAux_subset K rest c x h)

theorem everyNth_subset {α : Type _} (K : Nat) (l : List α) (x : α)
    (h : x ∈ everyNth K l) : x ∈ l :=
  everyNthAux_subset K l 0 x h

theorem enumFrom_getElem? {α : Type _} :
    ∀ (l : List α) (i j : Nat),
      (enumFrom i l)[j]? = (l[j]?).map (fun a => (i + j, a))
  | [], i, j => by simp [enumFrom]
  | a :: rest, i, 0 => by simp [enumFrom]
  | a :: rest, i, j + 1 => by
    rw [enumFrom, List.getElem?_cons_succ, List.getElem?_cons_succ,
      enumFrom_getElem? rest (i + 1) j]
    have : i + 1 + j = i + (j + 1) := by omega
    rw [this]

theorem enumList_getElem? {α : Type _} (l : List α) (j : Nat) :
    (enumList l)[j]? = (l[j]?).map (fun a => (j, a)) := by
  rw [enumList, enumFrom_getElem? l 0 j]
  simp

theorem enumFrom_length {α : Type _} :
    ∀ (l : List α) (i : Nat), (enumFrom i l).length = l.length
  | [], _ => rfl
  | a :: rest, i => by
    rw [enumFrom, List.length_cons, List.length_cons,
      enumFrom_length rest (i + 1)]

theorem enumList_length {α : Type _} (l : List α) :
    (enumList l).length = l.length :=
  enumFrom_length l 0

theorem enumFrom_mem_snd {α : Type _} :
    ∀ (l : List α) (i : Nat) (p : Nat × α), p ∈ enumFrom i l → p.2 ∈ l
  | [], _, _, h => by simp [enumFrom] at h
  | a :: rest, i, p, h => by
    rw [enumFrom, List.mem_cons] at h
    rcases h with h | h
    · rw [h]
      exact List.mem_cons_self a rest
    · exact List.mem_cons_of_mem a (enumFrom_mem_snd rest (i + 1) p h)

theorem mapMOpt_length {α β : Type _} (g : α → Option β) :
    ∀ (l : List α) (res : List β), mapMOpt g l = some res →
      res.length = l.length
  | [], res, h => by
    rw [mapMOpt, Option.some.injEq] at h
    rw [← h]
    rfl
  | a :: rest, res, h => by
    rw [mapMOpt] at h
    cases hga : g a with
    | none => rw [hga] at h; exact absurd h (by simp)
    | some b =>
      rw [hga] at h
      cases hrest : mapMOpt g rest with
      | none => rw [hrest] at h; exact absurd h (by simp)
      | some bs =>
        rw [hrest, Option.some.injEq] at h
        rw [← h, List.length_cons, List.length_cons,
          mapMOpt_length g rest bs hrest]

theorem mapMOpt_getElem? {α β : Type _} (g : α → Option β) :
    ∀ (l : List α) (res : List β), mapMOpt g l = some res →
      ∀ j : Nat, res[j]? = (l[j]?).bind g
  | [], res, h, j => by
    rw [mapMOpt, Option.some.injEq] at h
    rw [← h]
    rfl
  | a :: rest, res, h, j => by
    rw [mapMOpt] at h
    cases hga : g a with
    | none => rw [hga] at h; exact absurd h (by simp)
    | some b =>
      rw [hga] at h
      cases hrest : mapMOpt g rest with
      | none => rw [hrest] at h; exact absurd h (by simp)
      | some bs =>
        rw [hrest, Option.some.injEq] at h
        cases j with
        | zero => rw [← h]; simp [hga]
        | succ j =>
          rw [← h, List.getElem?_cons_succ, List.getElem?_cons_succ,
            mapMOpt_getElem? g rest bs hrest j]

theorem mem_insertSorted (a x : String) :
    ∀ l : List String, x ∈ insertSorted a l ↔ x = a ∨ x ∈ l
  | [] => by simp [insertSorted]
  | b :: rest => by
    rw [insertSorted]
    by_cases h : charsLe a.data b.data
    · rw [if_pos h]
      simp
    · rw [if_neg h]
      simp only [List.mem_cons, mem_insertSorted a x rest]
      tauto

theorem mem_sortStr (x : String) :
    ∀ l : List String, x ∈ sortStr l ↔ x ∈ l
  | [] => by simp [sortStr]
  | a :: rest => by
    have : sortStr (a :: rest) = insertSorted a (sortStr rest) := rfl
    rw [this, mem_insertSorted, mem_sortStr x rest, List.mem_cons]

theorem length_insertSorted (a : String) :
    ∀ l : List String, (insertSorted a l).length = l.length + 1
  | [] => rfl
  | b :: rest => by
    rw [insertSorted]
    by_cases h : charsLe a.data b.data
    · rw [if_pos h]
      simp
    · rw [if_neg h, List.length_cons, length_insertSorted a rest,
        List.length_cons]

theorem length_sortStr :
    ∀ l : List String, (sortStr l).length = l.length
  | [] => rfl
  | a :: rest => by
    have : sortStr (a :: rest) = insertSorted a (sortStr rest) := rfl
    rw [this, length_insertSorted, length_sortStr rest, List.length_cons]

/-! ## Inversion lemmas: what a successful `get_video` call returns -/

/-- The frame list of a `get_video` result (empty when the call raised). -/
def framesOf {γ δ : Type _} (o : Option (δ × VOSVideo × γ)) : List VOSFrame :=
  (o.map (fun out => out.2.1.frames)).getD []

/-- The frame paths `PNGRawDataset.get_video` resolves before enumeration:
the sorted glob, truncated, then strided. -/
def pngResolvedFrames (ds : PNGRawDataset) (all_frames_glob : List String) :
    List String :=
  everyNth ds.sample_rate
    (if ds.truncate_video > 0 then (sortStr all_frames_glob).take ds.truncate_video.toNat
     else sortStr all_frames_glob)

theorem png_get_video_inv {ds : PNGRawDataset} {idx : Nat}
    {glob : List String} {out : PNGRawDataset × VOSVideo × PNGSegLoader}
    (h : ds.get_video idx glob = some out) :
    0 < ds.sample_rate ∧ out.1 = ds ∧
    ∃ name, ds.video_names.get? idx = some name ∧
      out.2.1 = ⟨name,
        if (pngResolvedFrames ds glob).length = 0 then idx
        else (pngResolvedFrames ds glob).length - 1,
        (enumList (pngResolvedFrames ds glob)).map
          (fun p => VOSFrame.mk p.1 (some p.2) none false)⟩ := by
  unfold PNGRawDataset.get_video at h
  split at h
  · exact Option.noConfusion h
  next name hv =>
    split at h
    · exact Option.noConfusion h
    next hK =>
      rw [Option.some.injEq] at h
      refine ⟨Nat.pos_of_ne_zero hK, ?_, name, hv, ?_⟩
      · rw [← h]
      · rw [← h]
        rfl

theorem npz_get_video_inv {ds : NPZRawDataset} {idx : Nat} {npz : NPZData}
    {out : NPZRawDataset × VOSVideo × NPZSegmentLoader}
    (h : ds.get_video idx npz = some out) :
    0 < ds.sample_rate ∧ out.1 = ds ∧
    out.2.2 = ⟨everyNth ds.sample_rate (npzTrunc ds.truncate_video npz.gts)⟩ ∧
    ∃ name, ds.video_names.get? idx = some name ∧
      out.2.1 = ⟨name, idx,
        (enumList (everyNth ds.sample_rate
          (npzTrunc ds.truncate_video (npzProcessedImgs npz)))).map
          (fun p => VOSFrame.mk (p.1 * ds.sample_rate) none (some p.2) false)⟩ := by
  unfold NPZRawDataset.get_video at h
  split at h
  · exact Option.noConfusion h
  next name hv =>
    split at h
    · exact Option.noConfusion h
    next hK =>
      rw [Option.some.injEq] at h
      refine ⟨Nat.pos_of_ne_zero hK, ?_, ?_, name, hv, ?_⟩
      · rw [← h]
      · rw [← h]
      · rw [← h]

theorem sa1b_get_video_inv {ds : SA1BRawDataset} {idx : Nat}
    {out : SA1BRawDataset × VOSVideo × SA1BSegmentLoader}
    (h : ds.get_video idx = some out) :
    out.1 = ds ∧
    ∃ name vid, ds.video_names.get? idx = some name ∧
      strToNatOpt (String.mk ((splitChar '_' name.data).getLastD [])) =
        some vid ∧
      out.2.1 = ⟨String.mk ((splitChar '_' name.data).getLastD []), vid,
        (List.range ds.num_frames).map (fun k => VOSFrame.mk k
          (some (pathJoin ds.img_folder (name ++ ".jpg"))) none false)⟩ := by
  unfold SA1BRawDataset.get_video at h
  split at h
  · exact Option.noConfusion h
  next name hv =>
    dsimp only [] at h
    split at h
    · exact Option.noConfusion h
    next vid hvid =>
      rw [Option.some.injEq] at h
      refine ⟨?_, name, vid, hv, hvid, ?_⟩
      · rw [← h]
      · rw [← h]

theorem json_get_video_inv {ds : JSONRawDataset} {idx : Nat}
    {listing : List String} {annots : List FrameAnnot}
    {out : JSONRawDataset × VOSVideo × JSONSegmentLoader}
    (h : ds.get_video idx listing annots = some out) :
    0 < ds.sample_rate ∧ out.1 = ds ∧
    out.2.2.ann_every = ds.ann_every ∧ out.2.2.frame_annots = annots ∧
    ∃ name frame_ids, ds.video_names.get? idx = some name ∧
      mapMOpt (fun n => strToNatOpt (splitextRoot n)) (sortStr listing) =
        some frame_ids ∧
      out.2.1.video_name = name ∧ out.2.1.video_id = idx ∧
      out.2.1.frames =
        (if ds.rm_unannotated then
          ((everyNth ds.sample_rate frame_ids).map
            (fun fid => VOSFrame.mk fid (some (pathJoin ds.img_folder
              (name ++ "/" ++ pad5 fid ++ ".jpg"))) none false)).filter
            (fun f => decide (f.frame_idx ∈ validFrameIds annots ds.ann_every))
        else
          (everyNth ds.sample_rate frame_ids).map
            (fun fid => VOSFrame.mk fid (some (pathJoin ds.img_folder
              (name ++ "/" ++ pad5 fid ++ ".jpg"))) none false)) := by
  unfold JSONRawDataset.get_video at h
  split at h
  · exact Option.noConfusion h
  next name hv =>
    split at h
    · exact Option.noConfusion h
    next hK =>
      split at h
      · exact Option.noConfusion h
      next frame_ids hids =>
        rw [Option.some.injEq] at h
        refine ⟨Nat.pos_of_ne_zero hK, ?_, ?_, ?_, name, frame_ids, hv, hids,
          ?_, ?_, ?_⟩ <;> rw [← h]

theorem brats_get_video_inv {ds : BraTSRawDataset} {idx : Nat} {raw : Vol4}
    {gt_listing : List String}
    {out : BraTSRawDataset × VOSVideo × BraTSSegmentLoader}
    (h : ds.get_video idx raw gt_listing = some out) :
    ∃ name frames, ds.video_names.get? idx = some name ∧
      out.1 = { ds with curr_vid := name } ∧
      out.2.1 = ⟨name, idx, frames⟩ ∧
      ∃ full_video, mapMOpt renormalize (raw.drop 1) = some full_video ∧
        mapMOpt (fun fi => ((permute3012 full_video).get? fi).map
          (fun t => VOSFrame.mk fi (some "null") (some t) false))
          (List.range 160) = some frames := by
  unfold BraTSRawDataset.get_video at h
  split at h
  · exact Option.noConfusion h
  next name hv =>
    dsimp only [] at h
    split at h
    · exact Option.noConfusion h
    next full_video hfv =>
      split at h
      · exact Option.noConfusion h
      next label hl =>
        split at h
        · exact Option.noConfusion h
        next frames hframes =>
          rw [Option.some.injEq] at h
          exact ⟨name, frames, hv, by rw [← h], by rw [← h],
            full_video, hfv, hframes⟩

theorem test_get_video_inv {ds : TestDataset} {idx : Nat}
    {out : TestDataset × VOSVideo × TestSegmentLoader}
    (h : ds.get_video idx = some out) :
    out.1 = ds ∧
    ∃ fv, ds.imgs.get? idx = some fv ∧
      out.2.1 = ⟨natToStr idx, idx, (enumList fv).map
        (fun p => VOSFrame.mk p.1 (some "null") (some p.2) false)⟩ := by
  unfold TestDataset.get_video at h
  split at h
  · exact Option.noConfusion h
  next fv hv =>
    rw [Option.some.injEq] at h
    exact ⟨by rw [← h], fv, hv, by rw [← h]⟩

/-! ## C1: exactly one of image path / in-memory data -/

/-- Whether a frame's `image_path` carries a real path: a string other than
the placeholder `'null'` the medical-volume and synthetic-test indexers
store next to in-memory data (`none` models Python `None`). -/
def hasRealPath (f : VOSFrame) : Bool :=
  match f.image_path with
  | none => false
  | some p => decide (p ≠ "null")

/-- A frame never carries both an in-memory tensor and a real path: when
`data` is present the path field holds no real path, and (contrapositive)
when a real path is present `data` is absent. -/
def frameExclusive (f : VOSFrame) : Prop :=
  (f.data.isSome && hasRealPath f) = false

theorem frameExclusive_data_none (i : Nat) (p : Option String) (c : Bool) :
    frameExclusive ⟨i, p, none, c⟩ := by
  simp [frameExclusive]

theorem frameExclusive_null_path (i : Nat) (d : Option Vol3) (c : Bool) :
    frameExclusive ⟨i, some "null", d, c⟩ := by
  simp [frameExclusive, hasRealPath]

theorem elim_frameExclusive_of_map {β : Type _} (L : List β)
    (g : β → VOSFrame) (hg : ∀ x, frameExclusive (g x)) (j : Nat) :
    (((L.map g)[j]?).elim True frameExclusive) := by
  rw [List.getElem?_map]
  cases hx : L[j]? with
  | none => exact trivial
  | some x => exact hg x

theorem elim_frameExclusive_of_filter (L : List VOSFrame)
    (q : VOSFrame → Bool) (hL : ∀ x ∈ L, frameExclusive x) (j : Nat) :
    (((L.filter q)[j]?).elim True frameExclusive) := by
  cases hx : (L.filter q)[j]? with
  | none => exact trivial
  | some x =>
    exact hL x (List.mem_of_mem_filter (List.getElem?_mem hx))

/-- C1: for every indexer and every in-range index, every frame of the
returned video has exactly one of `image_path` / `data` populated: a frame
holding a tensor carries no real path (its path field is `None` or the
`'null'` placeholder), and a frame with a real path holds no tensor. Each
conjunct quantifies over the indexer state and the filesystem inputs; an
out-of-range index or a raising call yields no frame and the conclusion is
vacuous (`Option.elim _ True`). -/
theorem frames_exactly_one_of_path_or_data :
    (∀ (ds : PNGRawDataset) (idx : Nat) (glob : List String) (j : Nat),
      ((framesOf (ds.get_video idx glob))[j]?).elim True frameExclusive) ∧
    (∀ (ds : NPZRawDataset) (idx : Nat) (npz : NPZData) (j : Nat),
      ((framesOf (ds.get_video idx npz))[j]?).elim True frameExclusive) ∧
    (∀ (ds : SA1BRawDataset) (idx : Nat) (j : Nat),
      ((framesOf (ds.get_video idx))[j]?).elim True frameExclusive) ∧
    (∀ (ds : JSONRawDataset) (idx : Nat) (listing : List String)
        (annots : List FrameAnnot) (j : Nat),
      ((framesOf (ds.get_video idx listing annots))[j]?).elim True
        frameExclusive) ∧
    (∀ (ds : BraTSRawDataset) (idx : Nat) (raw : Vol4)
        (gt_listing : List String) (j : Nat),
      ((framesOf (ds.get_video idx raw gt_listing))[j]?).elim True
        frameExclusive) ∧
    (∀ (ds : TestDataset) (idx : Nat) (j : Nat),
      ((framesOf (ds.get_video idx))[j]?).elim True frameExclusive) := by
  refine ⟨?_, ?_, ?_, ?_, ?_, ?_⟩
  · intro ds idx glob j
    cases ho : ds.get_video idx glob with
    | none => simp [framesOf, ho]
    | some out =>
      obtain ⟨-, -, name, -, hvid⟩ := png_get_video_inv ho
      simp only [framesOf, ho, Option.map_some', Option.getD_some, hvid]
      exact elim_frameExclusive_of_map _ _
        (fun p : Nat × String => frameExclusive_data_none p.1 (some p.2) false) j
  · intro ds idx npz j
    cases ho : ds.get_video idx npz with
    | none => simp [framesOf, ho]
    | some out =>
      obtain ⟨-, -, -, name, -, hvid⟩ := npz_get_video_inv ho
      simp only [framesOf, ho, Option.map_some', Option.getD_some, hvid]
      exact elim_frameExclusive_of_map _ _
        (fun p => by simp [frameExclusive, hasRealPath]) j
  · intro ds idx j
    cases ho : ds.get_video idx with
    | none => simp [framesOf, ho]
    | some out =>
      obtain ⟨-, name, vid, -, -, hvid⟩ := sa1b_get_video_inv ho
      simp only [framesOf, ho, Option.map_some', Option.getD_some, hvid]
      exact elim_frameExclusive_of_map _ _
        (fun k => frameExclusive_data_none k _ false) j
  · intro ds idx listing annots j
    cases ho : ds.get_video idx listing annots with
    | none => simp [framesOf, ho]
    | some out =>
      obtain ⟨-, -, -, -, name, frame_ids, -, -, -, -, hframes⟩ :=
        json_get_video_inv ho
      simp only [framesOf, ho, Option.map_some', Option.getD_some, hframes]
      by_cases hrm : ds.rm_unannotated
      · rw [if_pos hrm]
        refine elim_frameExclusive_of_filter _ _ (fun x hx => ?_) j
        obtain ⟨fid, -, rfl⟩ := List.mem_map.mp hx
        exact frameExclusive_data_none fid _ false
      · rw [if_neg hrm]
        exact elim_frameExclusive_of_map _ _
          (fun fid => frameExclusive_data_none fid _ false) j
  · intro ds idx raw gt_listing j
    cases ho : ds.get_video idx raw gt_listing with
    | none => simp [framesOf, ho]
    | some out =>
      obtain ⟨name, frames, -, -, hvid, full_video, -, hframes⟩ :=
        brats_get_video_inv ho
      simp only [framesOf, ho, Option.map_some', Option.getD_some, hvid]
      cases hx : frames[j]? with
      | none => exact trivial
      | some f =>
        have h2 : ((List.range 160)[j]?).bind (fun fi =>
            Option.map (fun t => VOSFrame.mk fi (some "null") (some t) false)
              ((permute3012 full_video).get? fi)) = some f := by
          rw [← mapMOpt_getElem? _ _ _ hframes j, hx]
        obtain ⟨fi, -, h3⟩ := Option.bind_eq_some.mp h2
        obtain ⟨t, -, h4⟩ := Option.map_eq_some'.mp h3
        rw [← h4]
        exact frameExclusive_null_path fi (some t) false
  · intro ds idx j
    cases ho : ds.get_video idx with
    | none => simp [framesOf, ho]
    | some out =>
      obtain ⟨-, fv, -, hvid⟩ := test_get_video_inv ho
      simp only [framesOf, ho, Option.map_some', Option.getD_some, hvid]
      exact elim_frameExclusive_of_map _ _
        (fun p : Nat × Vol3 => frameExclusive_null_path p.1 (some p.2) false) j

/-! ## C2, C5: PNG indexer video id and frame numbering -/

/-- C2: in `PNGRawDataset.get_video` the loop variable `idx` shadows the
`idx` parameter, so whenever the resolved frame list is non-empty the
returned video's `video_id` is the frame count minus one (the loop
variable's final value), and only an empty frame list leaves the requested
index as `video_id`. -/
theorem png_video_id_loop_shadowing :
    ∀ (ds : PNGRawDataset) (idx : Nat) (glob : List String),
      (ds.get_video idx glob).elim True (fun out =>
        out.2.1.video_id =
          if out.2.1.frames.length = 0 then idx
          else out.2.1.frames.length - 1) := by
  intro ds idx glob
  cases ho : ds.get_video idx glob with
  | none => exact trivial
  | some out =>
    obtain ⟨hK, -, name, -, hvid⟩ := png_get_video_inv ho
    simp only [Option.elim_some, hvid, List.length_map, enumList_length]

/-- C5: with sampling stride `K ≥ 1` and truncation unset
(`truncate_video = -(n) ≤ 0`), `PNGRawDataset.get_video` returns exactly
`ceil(num_images / K) = (num_images + K - 1) / K` frames whose sequence
positions are the dense range `0 .. M-1`, reassigned by enumeration rather
than derived from the file names (a zero stride raises and is vacuous
here). -/
theorem png_frame_count_and_dense_positions :
    ∀ (img gt : String) (K : Nat) (pal so : Bool) (n : Nat)
      (names : List String) (idx : Nat) (glob : List String) (j : Nat),
      ((PNGRawDataset.mk img gt K pal so (-(n : Int)) names).get_video idx
        glob).elim True (fun out =>
          out.2.1.frames.length = (glob.length + K - 1) / K ∧
          (out.2.1.frames[j]?).elim True (fun f => f.frame_idx = j)) := by
  intro img gt K pal so n names idx glob j
  cases ho : (PNGRawDataset.mk img gt K pal so (-(n : Int)) names).get_video
      idx glob with
  | none => exact trivial
  | some out =>
    obtain ⟨hK, -, name, -, hvid⟩ := png_get_video_inv ho
    have hsel : pngResolvedFrames (PNGRawDataset.mk img gt K pal so
        (-(n : Int)) names) glob = everyNth K (sortStr glob) := by
      unfold pngResolvedFrames
      rw [if_neg (by simp)]
    constructor
    · rw [hvid]
      simp only [List.length_map, enumList_length, hsel,
        everyNth_length K hK, length_sortStr]
    · rw [hvid]
      simp only [List.getElem?_map, enumList_getElem?]
      cases hx : (pngResolvedFrames (PNGRawDataset.mk img gt K pal so
          (-(n : Int)) names) glob)[j]? with
      | none => exact trivial
      | some x => exact rfl

/-! ## C4: NPZ lock-step selection and pre-selection positions -/

/-- C4: `NPZRawDataset.get_video` applies truncation then the sampling
stride to the image stack and to the mask stack handed to the segment
loader in lock-step: the `j`-th returned frame holds the image at
pre-selection index `j * sample_rate` of the truncated processed stack, the
loader's `j`-th mask is the mask at the same index of the truncated mask
stack, and the frame's sequence position is that pre-selection index
`j * sample_rate` itself, not a dense renumbering. -/
theorem npz_lockstep_and_position :
    ∀ (ds : NPZRawDataset) (idx : Nat) (npz : NPZData) (j : Nat),
      (ds.get_video idx npz).elim True (fun out =>
        (out.2.1.frames[j]?).elim True (fun f =>
          f.frame_idx = j * ds.sample_rate ∧
          f.data = (npzTrunc ds.truncate_video
            (npzProcessedImgs npz))[j * ds.sample_rate]?) ∧
        out.2.2.masks[j]? =
          (npzTrunc ds.truncate_video npz.gts)[j * ds.sample_rate]?) := by
  intro ds idx npz j
  cases ho : ds.get_video idx npz with
  | none => exact trivial
  | some out =>
    obtain ⟨hK, -, hsl, name, -, hvid⟩ := npz_get_video_inv ho
    refine ⟨?_, ?_⟩
    · rw [hvid]
      simp only [List.getElem?_map, enumList_getElem?, everyNth_getElem? _ hK]
      cases hx : (npzTrunc ds.truncate_video
          (npzProcessedImgs npz))[j * ds.sample_rate]? with
      | none => exact trivial
      | some x => exact ⟨rfl, rfl⟩
    · rw [hsl]
      exact everyNth_getElem? _ hK _ j

/-! ## C6: NPZ channel replication and value range -/

/-- C6: on an archive whose raw image samples are 8-bit (each value at most
255, the dtype `np.load` yields for these archives), every in-memory frame
tensor `NPZRawDataset.get_video` returns has exactly 3 channels — the
single input channel replicated three times — and every pixel value, raw
value divided by 255, lies in `[0, 1]`. -/
theorem npz_three_channels_and_unit_range :
    ∀ (ds : NPZRawDataset) (idx : Nat) (npz : NPZData),
      (∀ g ∈ npz.imgs, ∀ row ∈ g, ∀ v ∈ row, v ≤ 255) →
      ∀ (j i hi wi : Nat),
        ((framesOf (ds.get_video idx npz))[j]?).elim True (fun f =>
          f.data.map List.length = some 3 ∧
          ((f.data.getD [])[i]?).elim True (fun ch =>
            (ch[hi]?).elim True (fun row =>
              (row[wi]?).elim True (fun q => 0 ≤ q ∧ q ≤ 1)))) := by
  intro ds idx npz hle j i hi wi
  cases ho : ds.get_video idx npz with
  | none => simp [framesOf, ho]
  | some out =>
    obtain ⟨hK, -, -, name, -, hvid⟩ := npz_get_video_inv ho
    simp only [framesOf, ho, Option.map_some', Option.getD_some, hvid]
    simp only [List.getElem?_map, enumList_getElem?, everyNth_getElem? _ hK]
    cases hx : (npzTrunc ds.truncate_video
        (npzProcessedImgs npz))[j * ds.sample_rate]? with
    | none => exact trivial
    | some x =>
      have hxmem : x ∈ npzProcessedImgs npz := by
        have h1 := List.getElem?_mem hx
        unfold npzTrunc at h1
        by_cases ht : ds.truncate_video > 0
        · rw [if_pos ht] at h1
          exact List.take_subset _ _ h1
        · rw [if_neg ht] at h1
          exact h1
      obtain ⟨gq, hgq, rfl⟩ := List.mem_map.mp hxmem
      obtain ⟨g0, hg0, rfl⟩ := List.mem_map.mp hgq
      simp only [Option.map_some', Option.elim_some]
      refine ⟨by simp, ?_⟩
      rw [Option.getD_some]
      cases hch : (List.replicate 3 (g0.map (fun row =>
          row.map (fun v : Nat => (v : ℚ) / 255))))[i]? with
      | none => exact trivial
      | some ch =>
        have hcheq := List.eq_of_mem_replicate (List.getElem?_mem hch)
        rw [hcheq]
        simp only [Option.elim_some, List.getElem?_map]
        cases hrow0 : g0[hi]? with
        | none => simp
        | some row0 =>
          simp only [Option.map_some', Option.elim_some, List.getElem?_map]
          cases hv0 : row0[wi]? with
          | none => simp
          | some v =>
            simp only [Option.map_some', Option.elim_some]
            have hvle : v ≤ 255 :=
              hle g0 hg0 row0 (List.getElem?_mem hrow0) v
                (List.getElem?_mem hv0)
            refine ⟨div_nonneg (Nat.cast_nonneg v) (by norm_num), ?_⟩
            rw [div_le_one (by norm_num : (0:ℚ) < 255)]
            exact_mod_cast hvle

/-- A concrete archive for the C6 witness: one 1 x 2 image plane holding
the extreme 8-bit samples 0 and 255. -/
def npzC6ds : NPZRawDataset := ⟨"folder", 1, -1, ["a"]⟩

/-- The archive contents for the C6 witness. -/
def npzC6data : NPZData := ⟨[[[0, 255]]], [[[0, 0]]]⟩

theorem npz_three_channels_and_unit_range_witness :
    ((framesOf (npzC6ds.get_video 0 npzC6data))[0]?).elim True (fun f =>
      f.data.map List.length = some 3 ∧
      ((f.data.getD [])[0]?).elim True (fun ch =>
        (ch[0]?).elim True (fun row =>
          (row[1]?).elim True (fun q => 0 ≤ q ∧ q ≤ 1)))) :=
  npz_three_channels_and_unit_range npzC6ds 0 npzC6data (by decide) 0 0 0 1

/-! ## C7: SA1B frame replication and id parsing -/

/-- C7: `SA1BRawDataset.get_video(i)` returns exactly `num_frames` frames,
all referencing the same image path and numbered `0 .. num_frames-1`; the
returned video's name is the part of the identifier after its last
underscore and its numeric id is that suffix parsed as an integer (an
unparsable suffix raises and is vacuous here). -/
theorem sa1b_frames_and_id_suffix :
    ∀ (ds : SA1BRawDataset) (idx : Nat) (j : Nat),
      (ds.video_names.get? idx).elim True (fun name =>
        (ds.get_video idx).elim True (fun out =>
          out.2.1.frames.length = ds.num_frames ∧
          out.2.1.video_name =
            String.mk ((splitChar '_' name.data).getLastD []) ∧
          strToNatOpt out.2.1.video_name = some out.2.1.video_id ∧
          (out.2.1.frames[j]?).elim True (fun f =>
            f.frame_idx = j ∧
            f.image_path = some (pathJoin ds.img_folder (name ++ ".jpg"))))) := by
  intro ds idx j
  cases hv : ds.video_names.get? idx with
  | none => exact trivial
  | some name =>
    cases ho : ds.get_video idx with
    | none => exact trivial
    | some out =>
      obtain ⟨-, name', vid, hv', hn, hvid⟩ := sa1b_get_video_inv ho
      rw [hv] at hv'
      rw [Option.some.injEq] at hv'
      subst hv'
      refine ⟨?_, ?_, ?_, ?_⟩
      · rw [hvid]
        simp
      · rw [hvid]
      · rw [hvid]
        exact hn
      · rw [hvid]
        simp only [List.getElem?_map, List.getElem?_range']
        by_cases hj : j < ds.num_frames
        · rw [List.getElem?_range hj, Option.map_some']
          exact ⟨rfl, rfl⟩
        · rw [List.getElem?_eq_none (by simpa using hj)]
          exact trivial

/-! ## C8: JSON indexer, remove-unannotated filtering -/

theorem validFrameIds_mod (annots : List FrameAnnot) (ae : Nat) (x : Nat)
    (hx : x ∈ validFrameIds annots ae) : x % ae = 0 := by
  unfold validFrameIds at hx
  obtain ⟨p, -, hp⟩ := List.mem_filterMap.mp hx
  cases hann : p.2 with
  | none => rw [hann] at hp; exact Option.noConfusion hp
  | some annot =>
    rw [hann] at hp
    dsimp only [] at hp
    by_cases hnone : (none : Option Unit) ∈ annot
    · rw [if_pos (decide_eq_true hnone)] at hp
      exact Option.noConfusion hp
    · rw [if_neg (by simpa using hnone)] at hp
      rw [Option.some.injEq] at hp
      rw [← hp]
      exact Nat.mul_mod_left p.1 ae

/-- C8: with the remove-unannotated flag enabled, every frame
`JSONRawDataset.get_video` returns has a sequence position that is an exact
multiple of the segment loader's annotation stride `ann_every`, and that
position is one of the valid ids `i * ann_every` computed from the loader's
annotation-presence list (an annotation record fully present at `i`). -/
theorem json_rm_unannotated_positions :
    ∀ (gt img : String) (K ae fps : Nat) (names : List String)
      (video_idx : Nat) (listing : List String) (annots : List FrameAnnot)
      (j : Nat),
      ((JSONRawDataset.mk gt img K true ae fps names).get_video video_idx
        listing annots).elim True (fun out =>
          (out.2.1.frames[j]?).elim True (fun f =>
            f.frame_idx % out.2.2.ann_every = 0 ∧
            f.frame_idx ∈ validFrameIds out.2.2.frame_annots
              out.2.2.ann_every)) := by
  intro gt img K ae fps names video_idx listing annots j
  cases ho : (JSONRawDataset.mk gt img K true ae fps names).get_video
      video_idx listing annots with
  | none => exact trivial
  | some out =>
    obtain ⟨-, -, hae, hannots, name, frame_ids, -, -, -, -, hframes⟩ :=
      json_get_video_inv ho
    simp only [Option.elim_some, hframes, if_pos]
    cases hx : (((everyNth K frame_ids).map (fun fid => VOSFrame.mk fid
        (some (pathJoin img (name ++ "/" ++ pad5 fid ++ ".jpg"))) none
        false)).filter (fun f => decide
          (f.frame_idx ∈ validFrameIds annots ae)))[j]? with
    | none => exact trivial
    | some f =>
      have hmem := List.getElem?_mem hx
      have hq := (List.mem_filter.mp hmem).2
      rw [decide_eq_true_eq] at hq
      rw [hae, hannots]
      exact ⟨validFrameIds_mod annots ae f.frame_idx hq, hq⟩

/-! ## C9: BraTS fixed 160-frame output -/

/-- The C9 counterexample indexer: one volume identifier, in range at
index 0. -/
def bratsCexDs : BraTSRawDataset := ⟨"vol", "gt", ["BRATS_001.npy"], ""⟩

/-- The C9 counterexample volume: a rectangular array of two modalities
(the first is dropped), a single 1 x 1 spatial point, depth 159 along the
last axis — one slice short of the 160 frames `get_video` tries to read. -/
def bratsCexRaw : Vol4 :=
  [[[List.replicate 159 1]], [[List.replicate 159 1]]]

set_option maxRecDepth 100000 in
/-- C9 counterexample: on an in-range index whose volume has post-transpose
depth 159, `BraTSRawDataset.get_video` raises an IndexError (returns no
video at all) instead of returning a 160-frame video, refuting "exactly 160
frames regardless of the actual depth". -/
theorem brats_short_volume_cex :
    BraTSRawDataset.get_video bratsCexDs 0 bratsCexRaw ["BRATS_001_seg.npy"]
        = none ∧
    bratsCexDs.video_names.get? 0 = some "BRATS_001.npy" ∧
    depthOf (bratsCexRaw.drop 1) = 159 :=
  ⟨rfl, rfl, rfl⟩

set_option maxRecDepth 8000 in
/-- C9 amended: whenever `BraTSRawDataset.get_video` does return a video
(which requires the loaded volume's post-transpose depth to be at least
160; longer volumes are silently cut), that video has exactly 160 frames
with sequence positions `0 .. 159`; on shallower volumes the call raises an
IndexError instead of returning a video. -/
theorem brats_160_frames_amended :
    ∀ (ds : BraTSRawDataset) (idx : Nat) (raw : Vol4)
      (gt_listing : List String) (j : Nat),
      (ds.get_video idx raw gt_listing).elim True (fun out =>
        out.2.1.frames.length = 160 ∧
        (out.2.1.frames[j]?).elim True (fun f => f.frame_idx = j)) := by
  intro ds idx raw gt_listing j
  cases ho : ds.get_video idx raw gt_listing with
  | none => exact trivial
  | some out =>
    obtain ⟨name, frames, -, -, hvid, full_video, -, hframes⟩ :=
      brats_get_video_inv ho
    refine ⟨?_, ?_⟩
    · rw [hvid]
      have := mapMOpt_length _ _ _ hframes
      simpa using this
    · rw [hvid]
      have h2 := mapMOpt_getElem? _ _ _ hframes j
      show (frames[j]?).elim True (fun f => f.frame_idx = j)
      rw [h2]
      by_cases hj : j < 160
      · rw [List.getElem?_range hj]
        show ((((permute3012 full_video).get? j).map (fun t =>
          VOSFrame.mk j (some "null") (some t) false)).elim True
            (fun f => f.frame_idx = j))
        cases hp : (permute3012 full_video).get? j with
        | none => exact trivial
        | some t => exact rfl
      · rw [List.getElem?_eq_none (by simpa using hj)]
        exact trivial

/-! ## C10: state effects of `get_video` -/

/-- C10: every indexer's `get_video` leaves the instance unchanged, except
the BraTS indexer, which overwrites exactly one instance field
(`curr_vid`) with the name of the video being materialized (all other
fields are returned unchanged, and the stored name is the resolved
`video_names[idx]`). -/
theorem get_video_state_effects :
    (∀ (ds : PNGRawDataset) (idx : Nat) (glob : List String),
      (ds.get_video idx glob).elim True (fun out => out.1 = ds)) ∧
    (∀ (ds : NPZRawDataset) (idx : Nat) (npz : NPZData),
      (ds.get_video idx npz).elim True (fun out => out.1 = ds)) ∧
    (∀ (ds : SA1BRawDataset) (idx : Nat),
      (ds.get_video idx).elim True (fun out => out.1 = ds)) ∧
    (∀ (ds : JSONRawDataset) (idx : Nat) (listing : List String)
        (annots : List FrameAnnot),
      (ds.get_video idx listing annots).elim True (fun out => out.1 = ds)) ∧
    (∀ (ds : TestDataset) (idx : Nat),
      (ds.get_video idx).elim True (fun out => out.1 = ds)) ∧
    (∀ (ds : BraTSRawDataset) (idx : Nat) (raw : Vol4)
        (gt_listing : List String),
      (ds.get_video idx raw gt_listing).elim True (fun out =>
        out.1 = ⟨ds.folder_path, ds.gt_path, ds.video_names,
          out.2.1.video_name⟩ ∧
        ds.video_names.get? idx = some out.2.1.video_name)) := by
  refine ⟨?_, ?_, ?_, ?_, ?_, ?_⟩
  · intro ds idx glob
    cases ho : ds.get_video idx glob with
    | none => exact trivial
    | some out => exact (png_get_video_inv ho).2.1
  · intro ds idx npz
    cases ho : ds.get_video idx npz with
    | none => exact trivial
    | some out => exact (npz_get_video_inv ho).2.1
  · intro ds idx
    cases ho : ds.get_video idx with
    | none => exact trivial
    | some out => exact (sa1b_get_video_inv ho).1
  · intro ds idx listing annots
    cases ho : ds.get_video idx listing annots with
    | none => exact trivial
    | some out => exact (json_get_video_inv ho).2.1
  · intro ds idx
    cases ho : ds.get_video idx with
    | none => exact trivial
    | some out => exact (test_get_video_inv ho).1
  · intro ds idx raw gt_listing
    cases ho : ds.get_video idx raw gt_listing with
    | none => exact trivial
    | some out =>
      obtain ⟨name, frames, hv, hds, hvid, -⟩ := brats_get_video_inv ho
      refine ⟨?_, ?_⟩
      · rw [hds, hvid]
      · rw [hvid, hv]

/-! ## C3: extension stripping in subset and exclusion files -/

/-- C3 counterexample: the NPZ indexer does not strip the extension from
subset-file lines. With one archive `a.npz` on disk (identifier `a`), the
subset line `a.npz` selects nothing — `resolveNames` comes back empty even
though without a subset file the identifier `a` is resolved — while the
same line does select `a` in the PNG indexer. -/
theorem npz_subset_extension_not_stripped_cex :
    ("a" ∉ NPZRawDataset.resolveNames ["a.npz"] (some ["a.npz"]) none) ∧
    NPZRawDataset.resolveNames ["a.npz"] (some ["a.npz"]) none = [] ∧
    NPZRawDataset.resolveNames ["a.npz"] none none = ["a"] ∧
    "a" ∈ PNGRawDataset.resolveNames (some ["a.npz"]) [] none := by
  decide

/-- C3 amended: the PNG, SA1B and JSON indexers strip the extension from
both subset-file and exclusion-file lines before comparison, and the NPZ
indexer strips it from exclusion-file lines; but the NPZ indexer compares
subset-file lines verbatim (whitespace-trimmed only) against its already
extension-stripped identifiers, so an NPZ subset line bearing the storage
extension selects nothing. -/
theorem subset_exclusion_extension_stripping_amended :
    (∀ (lines dir excl : List String) (v : String),
      v ∈ PNGRawDataset.resolveNames (some lines) dir (some excl) ↔
        (v ∈ lines.map (fun l => splitextRoot (strTrim l)) ∧
         v ∉ excl.map (fun l => splitextRoot (strTrim l)))) ∧
    (∀ (lines dir excl : List String) (v : String),
      v ∈ SA1BRawDataset.resolveNames (some lines) dir (some excl) ↔
        (v ∈ lines.map (fun l => splitextRoot (strTrim l)) ∧
         v ∉ excl.map (fun l => splitextRoot (strTrim l)))) ∧
    (∀ (excls : List (List String)) (lines dir : List String) (v : String),
      v ∈ JSONRawDataset.resolveNames excls (some lines) dir ↔
        (v ∈ lines.map (fun l => splitextRoot (strTrim l)) ∧
         v ∉ excls.flatten.map (fun l => splitextRoot (strTrim l)))) ∧
    (∀ (walk lines excl : List String) (v : String),
      v ∈ NPZRawDataset.resolveNames walk (some lines) (some excl) ↔
        (v ∈ lines.map strTrim ∧
         v ∈ (walk.filter (fun f => strEndsWith f ".npz")).map splitextRoot ∧
         v ∉ excl.map (fun l => splitextRoot (strTrim l)))) := by
  refine ⟨?_, ?_, ?_, ?_⟩
  · intro lines dir excl v
    simp only [PNGRawDataset.resolveNames, mem_sortStr, List.mem_filter,
      decide_eq_true_eq]
  · intro lines dir excl v
    simp only [SA1BRawDataset.resolveNames, List.mem_filter,
      decide_eq_true_eq]
  · intro excls lines dir v
    simp only [JSONRawDataset.resolveNames, mem_sortStr, List.mem_filter,
      decide_eq_true_eq]
  · intro walk lines excl v
    simp only [NPZRawDataset.resolveNames, mem_sortStr, List.mem_filter,
      decide_eq_true_eq]
    tauto

/-! ## Non-vacuity: each `get_video` model succeeds on a concrete input -/

theorem png_get_video_some_example :
    ((⟨"img", "gt", 1, true, false, -1, ["a"]⟩ : PNGRawDataset).get_video 0
      ["x.jpg"]).isSome = true := rfl

theorem npz_get_video_some_example :
    (npzC6ds.get_video 0 npzC6data).isSome = true := rfl

theorem sa1b_get_video_some_example :
    ((⟨"img", "gt", 2, 11/10, -1, ["sa_7"]⟩ : SA1BRawDataset).get_video
      0).isSome = true := rfl

theorem json_get_video_some_example :
    ((⟨"gt", "img", 1, true, 2, 24, ["v"]⟩ : JSONRawDataset).get_video 0
      ["00000.jpg", "00001.jpg", "00002.jpg"]
      [some [some ()], none, some [none]]).isSome = true := rfl

set_option maxRecDepth 100000 in
theorem brats_get_video_some_example :
    (BraTSRawDataset.get_video ⟨"vol", "gt", ["BRATS_001.npy"], ""⟩ 0
      [[[List.replicate 160 1]], [[List.replicate 160 1]]]
      ["BRATS_001_seg.npy"]).isSome = true := rfl

theorem test_get_video_some_example :
    ((⟨[[[[[0]]], [[[1]]]]]⟩ : TestDataset).get_video 0).isSome = true := rfl
